import Mathlib

/-!
Verification of the financing engine and NLU layer of the vehicle-shopping
repository.  The definitions below are shallow embeddings of the TypeScript /
JavaScript sources:

* `Financing` embeds `services/financing.ts` (calculatePurchase,
  calculateLease, calculateSubscription, calculateAllScenarios).
  JavaScript floating-point numbers are modelled as exact rationals (`ℚ`),
  `Math.round` as `roundJS` (round half towards +∞, JavaScript's behaviour),
  and a thrown `Error` as `Except.error` carrying the message.
* `NluTs` embeds the typed NLU module (`detectIntent`).
* `NluJs` embeds `server/utils/nlu.js` (`detectIntent`, `extractPriceRange`,
  `parsePrice`), with the regular expressions realised as leftmost-match,
  greedy scanners over the character list.
-/

/-- JavaScript `Math.round`: round half towards positive infinity. -/
def roundJS (q : ℚ) : ℚ := (⌊q + 1/2⌋ : ℤ)

namespace Financing

/-- `FinancingParams` from `shared/types.ts`.  `termMonths` is kept integral
(the engine only ever receives whole months); a missing `residualValue` is
`none`. -/
structure FinancingParams where
  price : ℚ
  downPayment : ℚ
  apr : ℚ
  termMonths : ℤ
  isLease : Bool := false
  isSubscription : Bool := false
  residualValue : Option ℚ := none
  tradeInValue : ℚ
  taxRate : ℚ
deriving Repr, DecidableEq

/-- The `breakdown` record of `PaymentCalculation` (all fields optional in
`shared/types.ts` except `taxes`; we keep `taxes` optional-free). -/
structure Breakdown where
  principal : Option ℚ := none
  interest : Option ℚ := none
  taxes : ℚ
  tradeIn : Option ℚ := none
  depreciation : Option ℚ := none
  finance : Option ℚ := none
  vehicle : Option ℚ := none
  insurance : Option ℚ := none
  maintenance : Option ℚ := none
deriving Repr, DecidableEq

/-- `PaymentCalculation` from `shared/types.ts`. -/
structure PaymentCalculation where
  monthlyPayment : ℚ
  totalCost : ℚ
  totalInterest : Option ℚ := none
  residualValue : Option ℚ := none
  breakdown : Breakdown
  type : String
deriving Repr, DecidableEq

/-- `tax = price * taxRate` (local `tax` of every calculator). -/
def taxOf (p : FinancingParams) : ℚ := p.price * p.taxRate

/-- `adjustedPrice = price + tax`. -/
def adjustedPriceOf (p : FinancingParams) : ℚ := p.price + taxOf p

/-- `netPrice = adjustedPrice - tradeInValue - downPayment` (the net financed
amount, identical in all three calculators). -/
def netPriceOf (p : FinancingParams) : ℚ :=
  adjustedPriceOf p - p.tradeInValue - p.downPayment

/-- `calculatePurchase` from `services/financing.ts`. -/
def calculatePurchase (p : FinancingParams) : Except String PaymentCalculation :=
  if p.price ≤ 0 then .error "Price must be positive"
  else if p.termMonths ≤ 0 then .error "Term must be positive"
  else if p.downPayment < 0 then .error "Down payment cannot be negative"
  else if p.tradeInValue < 0 then .error "Trade-in value cannot be negative"
  else if p.taxRate < 0 ∨ p.taxRate > 1 then .error "Tax rate must be between 0 and 1"
  else
    let tax := taxOf p
    let adjustedPrice := adjustedPriceOf p
    let netPrice := netPriceOf p
    if netPrice ≤ 0 then
      -- Edge case: trade-in + down payment exceeds price
      .ok { monthlyPayment := 0
            totalCost := p.downPayment + p.tradeInValue
            totalInterest := some 0
            breakdown := { principal := some 0, interest := some 0,
                           taxes := tax, tradeIn := some p.tradeInValue }
            type := "purchase" }
    else
      let monthlyRate := p.apr / 100 / 12
      let monthlyPayment : ℚ :=
        -- Edge case: 0% APR
        if monthlyRate = 0 ∨ p.apr = 0 then netPrice / (p.termMonths : ℚ)
        else
          let numerator := netPrice * monthlyRate * (1 + monthlyRate) ^ p.termMonths
          let denominator := (1 + monthlyRate) ^ p.termMonths - 1
          numerator / denominator
      let totalCost := monthlyPayment * (p.termMonths : ℚ) + p.downPayment + p.tradeInValue
      let totalInterest := totalCost - adjustedPrice
      .ok { monthlyPayment := roundJS monthlyPayment
            totalCost := roundJS totalCost
            totalInterest := some (roundJS totalInterest)
            breakdown := { principal := some (roundJS netPrice),
                           interest := some (roundJS totalInterest),
                           taxes := roundJS tax, tradeIn := some p.tradeInValue }
            type := "purchase" }

/-- The residual actually used by `calculateLease`:
`residualValue || Math.round(price * 0.55)`.  JavaScript `||` falls through to
the default both when `residualValue` is absent (`undefined`) and when it is
`0` (falsy). -/
def leaseResidual (p : FinancingParams) : ℚ :=
  match p.residualValue with
  | none => roundJS (p.price * (55/100))
  | some v => if v = 0 then roundJS (p.price * (55/100)) else v

/-- `calculateLease` from `services/financing.ts`.  Note that it validates
only `price`, `termMonths` and `downPayment`. -/
def calculateLease (p : FinancingParams) : Except String PaymentCalculation :=
  if p.price ≤ 0 then .error "Price must be positive"
  else if p.termMonths ≤ 0 then .error "Term must be positive"
  else if p.downPayment < 0 then .error "Down payment cannot be negative"
  else
    let tax := taxOf p
    let netPrice := netPriceOf p
    let residual := leaseResidual p
    if residual ≥ netPrice then .error "Residual value cannot exceed net price"
    else
      let depreciation := netPrice - residual
      let monthlyDepreciation := depreciation / (p.termMonths : ℚ)
      let moneyFactor := p.apr / 2400
      let monthlyFinance := (netPrice + residual) * moneyFactor
      let monthlyPayment := monthlyDepreciation + monthlyFinance
      let totalCost := monthlyPayment * (p.termMonths : ℚ) + p.downPayment + p.tradeInValue
      .ok { monthlyPayment := roundJS monthlyPayment
            totalCost := roundJS totalCost
            residualValue := some residual
            breakdown := { depreciation := some (roundJS monthlyDepreciation),
                           finance := some (roundJS monthlyFinance),
                           taxes := roundJS tax, tradeIn := some p.tradeInValue }
            type := "lease" }

/-- `calculateSubscription` from `services/financing.ts`.  Note that it
validates only `price` and `termMonths`. -/
def calculateSubscription (p : FinancingParams) : Except String PaymentCalculation :=
  if p.price ≤ 0 then .error "Price must be positive"
  else if p.termMonths ≤ 0 then .error "Term must be positive"
  else
    let tax := taxOf p
    let netPrice := netPriceOf p
    let vehiclePortion := netPrice * (6/10) / (p.termMonths : ℚ)
    let insurance : ℚ := 150
    let maintenance : ℚ := 100
    let monthlyPayment := vehiclePortion + insurance + maintenance
    let totalCost := monthlyPayment * (p.termMonths : ℚ) + p.downPayment + p.tradeInValue
    .ok { monthlyPayment := roundJS monthlyPayment
          totalCost := roundJS totalCost
          breakdown := { vehicle := some (roundJS vehiclePortion),
                         insurance := some insurance, maintenance := some maintenance,
                         taxes := roundJS tax, tradeIn := some p.tradeInValue }
          type := "subscription" }

/-- The labelled triple returned by `calculateAllScenarios`. -/
structure AllScenarios where
  buy : PaymentCalculation
  lease : PaymentCalculation
  subscription : PaymentCalculation
deriving Repr, DecidableEq

/-- `calculateAllScenarios` from `services/financing.ts`: runs the three
calculators in order; the first thrown error propagates. -/
def calculateAllScenarios (p : FinancingParams) : Except String AllScenarios := do
  let buy ← calculatePurchase p
  let lease ← calculateLease p
  let subscription ← calculateSubscription p
  return { buy := buy, lease := lease, subscription := subscription }

/-- The `baseParams` fixture of the financing unit-test file. -/
def baseParams : FinancingParams :=
  { price := 30000, downPayment := 2000, apr := 11/2, termMonths := 60,
    isLease := false, isSubscription := false, tradeInValue := 0, taxRate := 8/100 }

/-- `baseParams` with a negative trade-in value (violates the documented
domain constraint `tradeInValue ≥ 0`). -/
def negTradeParams : FinancingParams := { baseParams with tradeInValue := -1 }

/-- Zero-APR purchase whose trade-in exceeds the price
(`price=10000, tradeInValue=15000, downPayment=0, taxRate=0`). -/
def tradeInExceedsParams : FinancingParams :=
  { price := 10000, downPayment := 0, apr := 0, termMonths := 60,
    tradeInValue := 15000, taxRate := 0 }

/-- Zero-APR purchase fixture (`baseParams` with `apr = 0`). -/
def zeroAprParams : FinancingParams := { baseParams with apr := 0 }

/-- Lease fixture with an explicitly supplied `residualValue = 0`. -/
def leaseZeroResidualParams : FinancingParams :=
  { price := 10000, downPayment := 0, apr := 0, termMonths := 36,
    residualValue := some 0, tradeInValue := 0, taxRate := 0 }

/-- Lease fixture with `price=10000` and `residualValue=50000`
(residual far above the net financed amount). -/
def leaseHugeResidualParams : FinancingParams :=
  { price := 10000, downPayment := 0, apr := 11/2, termMonths := 36,
    residualValue := some 50000, tradeInValue := 0, taxRate := 0 }

/-- The lease monthly payment as the specification words it:
"monthlyDepreciation = (net amount − residual) ÷ termMonths; convert APR to a
money factor via APR ÷ 2400; monthlyFinanceCharge = (net amount + residual) ×
moneyFactor; monthlyPayment = depreciation + finance charge". -/
def specLeaseMonthly (p : FinancingParams) : ℚ :=
  (netPriceOf p - leaseResidual p) / (p.termMonths : ℚ) +
    (netPriceOf p + leaseResidual p) * (p.apr / 2400)

/-- The subscription monthly payment as the specification words it:
"vehicle portion = 60% of net amount amortized straight-line over termMonths,
plus fixed insurance (150/mo) and maintenance (100/mo)". -/
def specSubscriptionMonthly (p : FinancingParams) : ℚ :=
  netPriceOf p * (60/100) / (p.termMonths : ℚ) + 150 + 100

end Financing

/-! ## Shared string machinery for the NLU embeddings

JavaScript `text.toLowerCase()` is modelled by mapping `Char.toLower` over the
character list; `String.prototype.includes` / a bare regex alternative by
`containsSeq` (contiguous-sublist search). -/

/-- `needle` occurs as a contiguous sublist of `hay`
(JavaScript `hay.includes(needle)` for strings). -/
def containsSeq (needle : List Char) : List Char → Bool
  | [] => needle.isEmpty
  | c :: rest => needle.isPrefixOf (c :: rest) || containsSeq needle rest

/-- Lower-cased character list of a string (JavaScript `text.toLowerCase()`). -/
def lowerList (s : String) : List Char := s.data.map Char.toLower

/-- `keyword` occurs in the lower-cased text (JavaScript
`text.toLowerCase().includes(keyword)`, or an `/i` regex literal test). -/
def containsTok (keyword : String) (hay : List Char) : Bool :=
  containsSeq keyword.data hay

/-- The compare keywords named by the specification: "vs", "versus",
"compare", "compared to" (claim-side definition). -/
def hasCompareKeyword (text : String) : Bool :=
  containsTok "vs" (lowerList text) || containsTok "versus" (lowerList text) ||
  containsTok "compare" (lowerList text) || containsTok "compared to" (lowerList text)

namespace NluTs

/-- The four intents of the typed NLU module. -/
inductive Intent where
  | search
  | compare
  | filter
  | finance
deriving Repr, DecidableEq

/-- `/vs|versus|compared? to|compare/i.test(lowerText)` — the alternation
expanded: `compared? to` matches "compare to" or "compared to". -/
def compareTest (t : List Char) : Bool :=
  containsTok "vs" t || containsTok "versus" t ||
  containsTok "compare to" t || containsTok "compared to" t || containsTok "compare" t

/-- `/finance|payment|lease|buy|purchase|monthly|afford|price|cost/i.test(lowerText)`. -/
def financeTest (t : List Char) : Bool :=
  containsTok "finance" t || containsTok "payment" t || containsTok "lease" t ||
  containsTok "buy" t || containsTok "purchase" t || containsTok "monthly" t ||
  containsTok "afford" t || containsTok "price" t || containsTok "cost" t

/-- `/filter|only|just|with|has|need|must/i.test(lowerText)`. -/
def filterTest (t : List Char) : Bool :=
  containsTok "filter" t || containsTok "only" t || containsTok "just" t ||
  containsTok "with" t || containsTok "has" t || containsTok "need" t ||
  containsTok "must" t

/-- `detectIntent` from the typed NLU service (compare, then finance, then
filter, defaulting to search). -/
def detectIntent (text : String) : Intent :=
  let lowerText := lowerList text
  if compareTest lowerText then .compare
  else if financeTest lowerText then .finance
  else if filterTest lowerText then .filter
  else .search

end NluTs

namespace NluJs

/-- `INTENT_PATTERNS.search`:
`/(show|find|search|look for|display|list|get|see|want|need|looking for)/i`. -/
def searchTest (t : List Char) : Bool :=
  containsTok "show" t || containsTok "find" t || containsTok "search" t ||
  containsTok "look for" t || containsTok "display" t || containsTok "list" t ||
  containsTok "get" t || containsTok "see" t || containsTok "want" t ||
  containsTok "need" t || containsTok "looking for" t

/-- `INTENT_PATTERNS.compare`:
`/(compare|vs|versus|compared to|comparison|difference|different|versus|against)/i`. -/
def compareTest (t : List Char) : Bool :=
  containsTok "compare" t || containsTok "vs" t || containsTok "versus" t ||
  containsTok "compared to" t || containsTok "comparison" t ||
  containsTok "difference" t || containsTok "different" t ||
  containsTok "versus" t || containsTok "against" t

/-- `INTENT_PATTERNS.filter`: `/(filter|only|just|with|has|have|need|must)/i`. -/
def filterTest (t : List Char) : Bool :=
  containsTok "filter" t || containsTok "only" t || containsTok "just" t ||
  containsTok "with" t || containsTok "has" t || containsTok "have" t ||
  containsTok "need" t || containsTok "must" t

/-- `INTENT_PATTERNS.finance`:
`/(finance|payment|lease|buy|purchase|monthly|afford|price|cost)/i`. -/
def financeTest (t : List Char) : Bool :=
  containsTok "finance" t || containsTok "payment" t || containsTok "lease" t ||
  containsTok "buy" t || containsTok "purchase" t || containsTok "monthly" t ||
  containsTok "afford" t || containsTok "price" t || containsTok "cost" t

/-- `detectIntent` from `server/utils/nlu.js`: iterates `INTENT_PATTERNS` in
insertion order — search, compare, filter, finance — returning the first key
whose pattern matches, defaulting to `'search'`. -/
def detectIntent (text : String) : String :=
  let t := lowerList text
  if searchTest t then "search"
  else if compareTest t then "compare"
  else if filterTest t then "filter"
  else if financeTest t then "finance"
  else "search"

/-! ### Price-range extraction (`extractPriceRange` of `server/utils/nlu.js`)

The three regular expressions
`/under\s*\$?(\d{1,3}(?:,\d{3})*(?:k|thousand)?)/i`,
`/(?:over|above|more than)\s*\$?(\d{1,3}(?:,\d{3})*(?:k|thousand)?)/i` and
`/\$?(NUM)\s*[-–—]\s*\$?(NUM)/i` are realised as leftmost-match scanners with
JavaScript's greedy backtracking order: candidate parses of the number group
`NUM = \d{1,3}(?:,\d{3})*(?:k|thousand)?` are enumerated longest-first and the
first candidate whose continuation succeeds wins. -/

/-- The JavaScript `\s` class (restricted to the ASCII whitespace characters,
which are the only ones the queries contain). -/
def isSpaceJS (c : Char) : Bool :=
  c = ' ' || c = '\t' || c = '\n' || c = '\r' || c = '\x0b' || c = '\x0c'

/-- Greedy `\s*`. -/
def dropSpaces (l : List Char) : List Char := l.dropWhile isSpaceJS

/-- Greedy `\$?` (consuming the dollar sign cannot change whether the rest of
the pattern matches, since `$` is not a digit). -/
def dropDollar (l : List Char) : List Char :=
  match l with
  | '$' :: rest => rest
  | _ => l

/-- All parses of greedy `\d{1,3}`, longest first, as (consumed, rest) pairs;
empty when no digit is available. -/
def digits13List (l : List Char) : List (List Char × List Char) :=
  let ds := (l.takeWhile Char.isDigit).take 3
  (List.range ds.length).map fun i => (ds.take (ds.length - i), l.drop (ds.length - i))

/-- All parses of greedy `(?:,\d{3})*`, most groups first. -/
def commaGroupsList : List Char → List (List Char × List Char)
  | c :: a :: b :: d :: rest =>
    if c = ',' && a.isDigit && b.isDigit && d.isDigit then
      ((commaGroupsList rest).map fun p => (c :: a :: b :: d :: p.1, p.2)) ++
        [([], c :: a :: b :: d :: rest)]
    else [([], c :: a :: b :: d :: rest)]
  | l => [([], l)]

/-- All parses of greedy `(?:k|thousand)?`: `k` first, then `thousand`, then
the empty alternative. -/
def suffixList (l : List Char) : List (List Char × List Char) :=
  (match l with
   | 'k' :: rest => [(['k'], rest)]
   | _ => []) ++
  (if "thousand".data.isPrefixOf l then [("thousand".data, l.drop 8)] else []) ++
  [([], l)]

/-- All parses of the capture group `\d{1,3}(?:,\d{3})*(?:k|thousand)?`, in
greedy backtracking order. -/
def numParses (l : List Char) : List (List Char × List Char) :=
  (digits13List l).flatMap fun p =>
    (commaGroupsList p.2).flatMap fun q =>
      (suffixList q.2).map fun s => (p.1 ++ q.1 ++ s.1, s.2)

/-- Leftmost match: try the pattern at every start position, first success
wins (JavaScript `String.prototype.match` without the global flag). -/
def firstMatch {α : Type} (f : List Char → Option α) : List Char → Option α
  | [] => f []
  | c :: rest =>
    match f (c :: rest) with
    | some x => some x
    | none => firstMatch f rest

/-- Match `under\s*\$?(NUM)` anchored at the start of `l`, returning the
capture group. -/
def matchUnderAt (l : List Char) : Option (List Char) :=
  if "under".data.isPrefixOf l then
    match numParses (dropDollar (dropSpaces (l.drop 5))) with
    | p :: _ => some p.1
    | [] => none
  else none

/-- Match one keyword alternative of `(?:over|above|more than)` followed by
`\s*\$?(NUM)`, anchored at the start of `l`. -/
def matchKeyNumAt (kw : String) (l : List Char) : Option (List Char) :=
  if kw.data.isPrefixOf l then
    match numParses (dropDollar (dropSpaces (l.drop kw.length))) with
    | p :: _ => some p.1
    | [] => none
  else none

/-- Match `(?:over|above|more than)\s*\$?(NUM)` anchored at the start of `l`
(alternatives tried left to right). -/
def matchOverAt (l : List Char) : Option (List Char) :=
  match matchKeyNumAt "over" l with
  | some c => some c
  | none =>
    match matchKeyNumAt "above" l with
    | some c => some c
    | none => matchKeyNumAt "more than" l

/-- The dash alternatives `[-–—]` of the explicit range pattern. -/
def isDash (c : Char) : Bool := c = '-' || c = '–' || c = '—'

/-- Match `\$?(NUM)\s*[-–—]\s*\$?(NUM)` anchored at the start of `l`,
returning both capture groups; backtracks through the parses of the first
number until the dash and second number succeed. -/
def matchRangeAt (l : List Char) : Option (List Char × List Char) :=
  (numParses (dropDollar l)).findSome? fun p =>
    match dropSpaces p.2 with
    | d :: rest =>
      if isDash d then
        match numParses (dropDollar (dropSpaces rest)) with
        | q :: _ => some (p.1, q.1)
        | [] => none
      else none
    | [] => none

/-- Numeric value of a digit list (the leading-digits behaviour of
JavaScript `parseInt(s, 10)`). -/
def digitsVal (l : List Char) : ℕ :=
  l.foldl (fun a c => a * 10 + (c.toNat - 48)) 0

/-- `parsePrice` from `server/utils/nlu.js`:
`const clean = priceStr.replace(/[,k]/gi, ''); const num = parseInt(clean, 10);
return priceStr.toLowerCase().includes('k') ? num * 1000 : num;`
(the capture is already lower-case, having been matched against the
lower-cased text). -/
def parsePrice (cap : List Char) : ℕ :=
  let clean := cap.filter fun c => !(c = ',' || c = 'k' || c = 'K')
  let num := digitsVal (clean.takeWhile Char.isDigit)
  if cap.contains 'k' then num * 1000 else num

/-- The `{ min, max }` record returned by `extractPriceRange` (`null` is
`none`). -/
structure PriceRange where
  min : Option ℕ
  max : Option ℕ
deriving Repr, DecidableEq

/-- `PRICE_KEYWORDS` from `server/utils/nlu.js`, in insertion order:
keyword, optional `min` bound, optional `max` bound. -/
def PRICE_KEYWORDS : List (String × Option ℕ × Option ℕ) :=
  [("affordable", none, some 30000),
   ("budget", none, some 25000),
   ("cheap", none, some 25000),
   ("economical", none, some 30000),
   ("luxury", some 50000, none),
   ("premium", some 40000, none),
   ("expensive", some 40000, none),
   ("high-end", some 50000, none)]

/-- The keyword pass of `extractPriceRange`: each matching keyword overwrites
whichever bounds it defines. -/
def applyPriceKeywords (t : List Char) : PriceRange :=
  PRICE_KEYWORDS.foldl
    (fun r kw =>
      if containsTok kw.1 t then
        { min := match kw.2.1 with | some m => some m | none => r.min,
          max := match kw.2.2 with | some m => some m | none => r.max }
      else r)
    { min := none, max := none }

/-- `extractPriceRange` from `server/utils/nlu.js`: keyword bounds first, then
the `under`, `over` and explicit-range patterns, each overwriting the bounds
it defines. -/
def extractPriceRange (text : String) : PriceRange :=
  let lowerText := lowerList text
  let r0 := applyPriceKeywords lowerText
  let r1 := match firstMatch matchUnderAt lowerText with
            | some cap => { r0 with max := some (parsePrice cap) }
            | none => r0
  let r2 := match firstMatch matchOverAt lowerText with
            | some cap => { r1 with min := some (parsePrice cap) }
            | none => r1
  match firstMatch matchRangeAt lowerText with
  | some caps => { min := some (parsePrice caps.1), max := some (parsePrice caps.2) }
  | none => r2

end NluJs

/-! ## Helper lemmas -/

/-- Characterisation of `roundJS` by bounds on the half-shifted value. -/
theorem roundJS_eq {q : ℚ} {n : ℤ} (hlo : (n : ℚ) ≤ q + 1/2) (hhi : q + 1/2 < n + 1) :
    roundJS q = (n : ℚ) := by
  unfold roundJS
  exact_mod_cast congrArg (fun z : ℤ => (z : ℚ)) (Int.floor_eq_iff.mpr ⟨hlo, hhi⟩)

/-- `containsSeq` decides contiguous-sublist occurrence. -/
theorem containsSeq_iff (n : List Char) (h : List Char) :
    containsSeq n h = true ↔ ∃ s t, s ++ n ++ t = h := by
  induction h with
  | nil =>
    simp only [containsSeq, List.isEmpty_iff]
    constructor
    · rintro rfl
      exact ⟨[], [], rfl⟩
    · rintro ⟨s, t, e⟩
      simp only [List.append_eq_nil] at e
      exact e.1.2
  | cons c rest ih =>
    simp only [containsSeq, Bool.or_eq_true, ih]
    constructor
    · rintro (hp | ⟨s, t, e⟩)
      · obtain ⟨t, ht⟩ := List.isPrefixOf_iff_prefix.mp hp
        exact ⟨[], t, by simpa using ht⟩
      · exact ⟨c :: s, t, by simp [← e]⟩
    · rintro ⟨s, t, e⟩
      cases s with
      | nil =>
        exact Or.inl (List.isPrefixOf_iff_prefix.mpr ⟨t, by simpa using e⟩)
      | cons a s =>
        refine Or.inr ⟨s, t, ?_⟩
        have := List.cons.injEq a (s ++ n ++ t) c rest ▸ e
        simpa using (List.cons_eq_cons.mp (by simpa using e)).2

/-- Occurrence of "compare to" entails occurrence of "compare". -/
theorem containsTok_compare_of_compare_to (l : List Char)
    (h : containsTok "compare to" l = true) : containsTok "compare" l = true := by
  rw [containsTok, containsSeq_iff] at h ⊢
  obtain ⟨s, t, e⟩ := h
  have hsplit : "compare to".data = "compare".data ++ [' ', 't', 'o'] := rfl
  rw [hsplit] at e
  exact ⟨s, [' ', 't', 'o'] ++ t, by rw [← e]; simp⟩

/-- If the text has a specification compare keyword then the typed module's
compare pattern matches. -/
theorem compareTest_of_hasCompareKeyword (text : String)
    (h : hasCompareKeyword text = true) : NluTs.compareTest (lowerList text) = true := by
  unfold hasCompareKeyword at h
  unfold NluTs.compareTest
  simp only [Bool.or_eq_true] at h ⊢
  tauto

/-- Conversely, a match of the typed module's compare pattern exhibits a
specification compare keyword. -/
theorem hasCompareKeyword_of_compareTest (text : String)
    (h : NluTs.compareTest (lowerList text) = true) : hasCompareKeyword text = true := by
  unfold NluTs.compareTest at h
  unfold hasCompareKeyword
  simp only [Bool.or_eq_true] at h ⊢
  rcases h with ((((h | h) | h) | h) | h)
  · tauto
  · tauto
  · have := containsTok_compare_of_compare_to _ h
    tauto
  · tauto
  · tauto

/-- The typed compare pattern is equivalent to the specification keywords. -/
theorem compareTest_eq_hasCompareKeyword (text : String) :
    NluTs.compareTest (lowerList text) = hasCompareKeyword text := by
  cases hkw : hasCompareKeyword text
  · cases hct : NluTs.compareTest (lowerList text)
    · rfl
    · exact absurd (hasCompareKeyword_of_compareTest text hct) (by simp [hkw])
  · exact compareTest_of_hasCompareKeyword text hkw

/-- Value of `calculatePurchase` at the test fixture `baseParams`. -/
theorem purchase_baseParams :
    Financing.calculatePurchase Financing.baseParams = Except.ok
      { monthlyPayment := 581, totalCost := 36841, totalInterest := some 4441,
        breakdown := { principal := some 30400, interest := some 4441,
                       taxes := 2400, tradeIn := some 0 },
        type := "purchase" } := by
  unfold Financing.calculatePurchase
  norm_num [Financing.baseParams, roundJS, Financing.taxOf, Financing.adjustedPriceOf,
    Financing.netPriceOf]

/-- Value of `calculateLease` at the test fixture `baseParams`. -/
theorem lease_baseParams :
    Financing.calculateLease Financing.baseParams = Except.ok
      { monthlyPayment := 339, totalCost := 22349, residualValue := some 16500,
        breakdown := { depreciation := some 232, finance := some 107,
                       taxes := 2400, tradeIn := some 0 },
        type := "lease" } := by
  unfold Financing.calculateLease
  norm_num [Financing.baseParams, roundJS, Financing.taxOf, Financing.adjustedPriceOf,
    Financing.netPriceOf, Financing.leaseResidual]

/-- Value of `calculateSubscription` at the test fixture `baseParams`. -/
theorem subscription_baseParams :
    Financing.calculateSubscription Financing.baseParams = Except.ok
      { monthlyPayment := 554, totalCost := 35240,
        breakdown := { vehicle := some 304, insurance := some 150, maintenance := some 100,
                       taxes := 2400, tradeIn := some 0 },
        type := "subscription" } := by
  unfold Financing.calculateSubscription
  norm_num [Financing.baseParams, roundJS, Financing.taxOf, Financing.adjustedPriceOf,
    Financing.netPriceOf]

/-! ## Claim theorems -/

/-- C1 (amended): `calculatePurchase` throws on every violation of
price ≤ 0, termMonths ≤ 0, downPayment < 0, tradeInValue < 0 or
taxRate outside [0,1]; `calculateLease` throws on the first three of those
violations only, and `calculateSubscription` on the first two only. -/
theorem financing_validation_amended (p : Financing.FinancingParams) :
    ((p.price ≤ 0 ∨ p.termMonths ≤ 0 ∨ p.downPayment < 0 ∨ p.tradeInValue < 0 ∨
        p.taxRate < 0 ∨ p.taxRate > 1) → (Financing.calculatePurchase p).isOk = false) ∧
    ((p.price ≤ 0 ∨ p.termMonths ≤ 0 ∨ p.downPayment < 0) →
        (Financing.calculateLease p).isOk = false) ∧
    ((p.price ≤ 0 ∨ p.termMonths ≤ 0) → (Financing.calculateSubscription p).isOk = false) := by
  refine ⟨fun h => ?_, fun h => ?_, fun h => ?_⟩
  · simp only [Financing.calculatePurchase]
    split_ifs <;> first | rfl | (exfalso; tauto)
  · simp only [Financing.calculateLease]
    split_ifs <;> first | rfl | (exfalso; tauto)
  · simp only [Financing.calculateSubscription]
    split_ifs <;> first | rfl | (exfalso; tauto)

/-- Witness for C1 (amended): at `price = 0` all three calculators throw. -/
theorem financing_validation_amended_witness :
    ((0:ℚ) ≤ 0 ∨ (60:ℤ) ≤ 0 ∨ (2000:ℚ) < 0 ∨ (0:ℚ) < 0 ∨ (8/100:ℚ) < 0 ∨ (8/100:ℚ) > 1) ∧
    (Financing.calculatePurchase { Financing.baseParams with price := 0 }).isOk = false ∧
    (Financing.calculateLease { Financing.baseParams with price := 0 }).isOk = false ∧
    (Financing.calculateSubscription { Financing.baseParams with price := 0 }).isOk = false := by
  have h := financing_validation_amended { Financing.baseParams with price := 0 }
  refine ⟨Or.inl le_rfl, h.1 ?_, h.2.1 ?_, h.2.2 ?_⟩ <;>
    exact Or.inl (by norm_num [Financing.baseParams])

/-- C1 (counterexample): a negative trade-in value is accepted without error
by `calculateLease` and `calculateSubscription` — only `calculatePurchase`
validates it. -/
theorem lease_subscription_accept_negative_trade_in :
    Financing.negTradeParams.tradeInValue < 0 ∧
    (Financing.calculateLease Financing.negTradeParams).isOk = true ∧
    (Financing.calculateSubscription Financing.negTradeParams).isOk = true := by
  refine ⟨by norm_num [Financing.negTradeParams, Financing.baseParams], ?_, ?_⟩
  · unfold Financing.calculateLease
    norm_num [Financing.negTradeParams, Financing.baseParams, Financing.taxOf,
      Financing.adjustedPriceOf, Financing.netPriceOf, Financing.leaseResidual,
      roundJS, Except.isOk, Except.toBool]
  · unfold Financing.calculateSubscription
    norm_num [Financing.negTradeParams, Financing.baseParams, Financing.taxOf,
      Financing.adjustedPriceOf, Financing.netPriceOf, roundJS, Except.isOk, Except.toBool]

/-- C2 (code bug): at the reference test fixture `baseParams`, the three
monthly payments are buy 581, lease 339, subscription 554 — so the
subscription payment exceeds the lease payment but is strictly below the
purchase payment, contradicting the test's
`subscription.monthlyPayment > buy.monthlyPayment` assertion. -/
theorem subscription_not_highest_at_base :
    Except.map (fun s : Financing.AllScenarios =>
        (s.buy.monthlyPayment, s.lease.monthlyPayment, s.subscription.monthlyPayment))
      (Financing.calculateAllScenarios Financing.baseParams) = Except.ok (581, 339, 554) ∧
    (554 : ℚ) < 581 ∧ (339 : ℚ) < 554 := by
  refine ⟨?_, by norm_num, by norm_num⟩
  unfold Financing.calculateAllScenarios
  rw [purchase_baseParams, lease_baseParams, subscription_baseParams]
  rfl

/-- C5: when the adjusted price minus trade-in minus down payment is ≤ 0,
`calculatePurchase` returns a zero monthly payment, total cost
`downPayment + tradeInValue` and zero interest, without dividing by the
non-positive principal. -/
theorem purchase_trade_in_covers (p : Financing.FinancingParams)
    (h1 : 0 < p.price) (h2 : 0 < p.termMonths) (h3 : 0 ≤ p.downPayment)
    (h4 : 0 ≤ p.tradeInValue) (h5 : 0 ≤ p.taxRate) (h6 : p.taxRate ≤ 1)
    (hnet : Financing.netPriceOf p ≤ 0) :
    Financing.calculatePurchase p = Except.ok
      { monthlyPayment := 0, totalCost := p.downPayment + p.tradeInValue,
        totalInterest := some 0,
        breakdown := { principal := some 0, interest := some 0,
                       taxes := Financing.taxOf p, tradeIn := some p.tradeInValue },
        type := "purchase" } := by
  simp only [Financing.calculatePurchase]
  rw [if_neg (not_le.mpr h1), if_neg (not_le.mpr h2), if_neg (not_lt.mpr h3),
      if_neg (not_lt.mpr h4), if_neg (not_or.mpr ⟨not_lt.mpr h5, not_lt.mpr h6⟩),
      if_pos hnet]

/-- Witness for C5: `price=10000, tradeInValue=15000, downPayment=0,
taxRate=0` yields `monthlyPayment = 0` and `totalCost = 15000`. -/
theorem purchase_trade_in_covers_witness :
    (0:ℚ) < 10000 ∧ Financing.netPriceOf Financing.tradeInExceedsParams ≤ 0 ∧
    Financing.calculatePurchase Financing.tradeInExceedsParams = Except.ok
      { monthlyPayment := 0, totalCost := 15000, totalInterest := some 0,
        breakdown := { principal := some 0, interest := some 0, taxes := 0,
                       tradeIn := some 15000 },
        type := "purchase" } := by
  have hnet : Financing.netPriceOf Financing.tradeInExceedsParams ≤ 0 := by
    norm_num [Financing.netPriceOf, Financing.adjustedPriceOf, Financing.taxOf,
      Financing.tradeInExceedsParams]
  refine ⟨by norm_num, hnet, ?_⟩
  rw [purchase_trade_in_covers Financing.tradeInExceedsParams
    (by norm_num [Financing.tradeInExceedsParams]) (by norm_num [Financing.tradeInExceedsParams])
    (by norm_num [Financing.tradeInExceedsParams]) (by norm_num [Financing.tradeInExceedsParams])
    (by norm_num [Financing.tradeInExceedsParams]) (by norm_num [Financing.tradeInExceedsParams])
    hnet]
  norm_num [Financing.tradeInExceedsParams, Financing.taxOf]

/-- C10: supplying `residualValue = 0` makes `calculateLease` behave exactly
as if the residual had been omitted, substituting the default
`round(0.55 × price)` — the default is selected by JavaScript truthiness. -/
theorem lease_zero_residual_defaults (p : Financing.FinancingParams) :
    Financing.calculateLease { p with residualValue := some 0 } =
      Financing.calculateLease { p with residualValue := none } ∧
    Financing.leaseResidual { p with residualValue := some 0 } =
      roundJS (p.price * (55/100)) := by
  constructor
  · simp [Financing.calculateLease, Financing.leaseResidual, Financing.taxOf,
      Financing.adjustedPriceOf, Financing.netPriceOf]
  · simp [Financing.leaseResidual]

/-- C4 (amended): for valid parameters with `apr = 0` and a positive net
financed amount, `calculatePurchase` uses the straight-line payment
`net ÷ termMonths` (no annuity formula), the unrounded payment times the term
recovers the net amount exactly, and the reported interest is zero. -/
theorem purchase_zero_apr_straight_line (p : Financing.FinancingParams)
    (h1 : 0 < p.price) (h2 : 0 < p.termMonths) (h3 : 0 ≤ p.downPayment)
    (h4 : 0 ≤ p.tradeInValue) (h5 : 0 ≤ p.taxRate) (h6 : p.taxRate ≤ 1)
    (hapr : p.apr = 0) (hnet : 0 < Financing.netPriceOf p) :
    Financing.calculatePurchase p = Except.ok
      { monthlyPayment := roundJS (Financing.netPriceOf p / (p.termMonths : ℚ)),
        totalCost := roundJS (Financing.adjustedPriceOf p),
        totalInterest := some 0,
        breakdown := { principal := some (roundJS (Financing.netPriceOf p)),
                       interest := some 0,
                       taxes := roundJS (Financing.taxOf p),
                       tradeIn := some p.tradeInValue },
        type := "purchase" } ∧
    Financing.netPriceOf p / (p.termMonths : ℚ) * (p.termMonths : ℚ) =
      Financing.netPriceOf p := by
  have hT : ((p.termMonths : ℚ)) ≠ 0 := by
    exact_mod_cast h2.ne'
  have hcancel : Financing.netPriceOf p / (p.termMonths : ℚ) * (p.termMonths : ℚ) =
      Financing.netPriceOf p := div_mul_cancel₀ _ hT
  refine ⟨?_, hcancel⟩
  simp only [Financing.calculatePurchase]
  rw [if_neg (not_le.mpr h1), if_neg (not_le.mpr h2), if_neg (not_lt.mpr h3),
      if_neg (not_lt.mpr h4), if_neg (not_or.mpr ⟨not_lt.mpr h5, not_lt.mpr h6⟩),
      if_neg (not_le.mpr hnet), if_pos (Or.inr hapr), hcancel]
  have hsum : Financing.netPriceOf p + p.downPayment + p.tradeInValue =
      Financing.adjustedPriceOf p := by
    simp only [Financing.netPriceOf]
    ring
  rw [hsum]
  norm_num [roundJS]

/-- Witness for C4 (amended): `baseParams` with `apr = 0` gives monthly
payment `round(30400/60) = 507` and zero total interest. -/
theorem purchase_zero_apr_straight_line_witness :
    Financing.zeroAprParams.apr = 0 ∧ 0 < Financing.netPriceOf Financing.zeroAprParams ∧
    Financing.calculatePurchase Financing.zeroAprParams = Except.ok
      { monthlyPayment := 507, totalCost := 32400, totalInterest := some 0,
        breakdown := { principal := some 30400, interest := some 0, taxes := 2400,
                       tradeIn := some 0 },
        type := "purchase" } := by
  have hnet : (0:ℚ) < Financing.netPriceOf Financing.zeroAprParams := by
    norm_num [Financing.netPriceOf, Financing.adjustedPriceOf, Financing.taxOf,
      Financing.zeroAprParams, Financing.baseParams]
  refine ⟨rfl, hnet, ?_⟩
  rw [(purchase_zero_apr_straight_line Financing.zeroAprParams
    (by norm_num [Financing.zeroAprParams, Financing.baseParams])
    (by norm_num [Financing.zeroAprParams, Financing.baseParams])
    (by norm_num [Financing.zeroAprParams, Financing.baseParams])
    (by norm_num [Financing.zeroAprParams, Financing.baseParams])
    (by norm_num [Financing.zeroAprParams, Financing.baseParams])
    (by norm_num [Financing.zeroAprParams, Financing.baseParams])
    rfl hnet).1]
  norm_num [Financing.zeroAprParams, Financing.baseParams, Financing.netPriceOf,
    Financing.adjustedPriceOf, Financing.taxOf, roundJS]

/-- C4 (counterexample): with `apr = 0` but the trade-in exceeding the price
(`price=10000, tradeInValue=15000`), the monthly payment is 0, not the
straight-line `round(net ÷ termMonths) = -83` the claim would require for
every valid parameter set. -/
theorem purchase_zero_apr_negative_net :
    Financing.tradeInExceedsParams.apr = 0 ∧
    Except.map (fun r : Financing.PaymentCalculation => r.monthlyPayment)
      (Financing.calculatePurchase Financing.tradeInExceedsParams) = Except.ok 0 ∧
    roundJS (Financing.netPriceOf Financing.tradeInExceedsParams /
      (Financing.tradeInExceedsParams.termMonths : ℚ)) = -83 ∧
    (0 : ℚ) ≠ -83 := by
  refine ⟨rfl, ?_, ?_, by norm_num⟩
  · unfold Financing.calculatePurchase
    norm_num [Financing.tradeInExceedsParams, Financing.taxOf, Financing.adjustedPriceOf,
      Financing.netPriceOf, Except.map]
  · norm_num [Financing.tradeInExceedsParams, Financing.taxOf, Financing.adjustedPriceOf,
      Financing.netPriceOf, roundJS]

/-- C6 (amended): for an otherwise-valid lease the residual actually used is
the caller's `residualValue` when that value is non-zero, and the default
`round(0.55 × price)` when it is omitted or zero; `calculateLease` throws
exactly when that residual is ≥ the net financed amount, and otherwise
reports it as `residualValue`. -/
theorem lease_residual_amended (p : Financing.FinancingParams)
    (h1 : 0 < p.price) (h2 : 0 < p.termMonths) (h3 : 0 ≤ p.downPayment) :
    Except.map (fun r : Financing.PaymentCalculation => r.residualValue)
      (Financing.calculateLease p) =
      if Financing.leaseResidual p ≥ Financing.netPriceOf p
      then Except.error "Residual value cannot exceed net price"
      else Except.ok (some (Financing.leaseResidual p)) := by
  simp only [Financing.calculateLease]
  rw [if_neg (not_le.mpr h1), if_neg (not_le.mpr h2), if_neg (not_lt.mpr h3)]
  by_cases hres : Financing.leaseResidual p ≥ Financing.netPriceOf p
  · rw [if_pos hres, if_pos hres]
    rfl
  · rw [if_neg hres, if_neg hres]
    rfl

/-- Witness for C6 (amended): `price=10000` with `residualValue=50000`
throws the residual validation error. -/
theorem lease_residual_amended_witness :
    (0:ℚ) < 10000 ∧
    Except.map (fun r : Financing.PaymentCalculation => r.residualValue)
      (Financing.calculateLease Financing.leaseHugeResidualParams) =
      Except.error "Residual value cannot exceed net price" := by
  refine ⟨by norm_num, ?_⟩
  rw [lease_residual_amended Financing.leaseHugeResidualParams
    (by norm_num [Financing.leaseHugeResidualParams])
    (by norm_num [Financing.leaseHugeResidualParams])
    (by norm_num [Financing.leaseHugeResidualParams])]
  rw [if_pos]
  norm_num [Financing.leaseHugeResidualParams, Financing.leaseResidual,
    Financing.netPriceOf, Financing.adjustedPriceOf, Financing.taxOf]

/-- C6 (counterexample): an explicitly supplied `residualValue = 0` is not
used as the residual — the default `round(0.55 × 10000) = 5500` is
substituted (JavaScript `||` treats 0 as falsy), so the returned
`residualValue` is 5500 rather than the caller's 0. -/
theorem lease_zero_residual_not_used :
    Financing.leaseZeroResidualParams.residualValue = some 0 ∧
    Except.map (fun r : Financing.PaymentCalculation => r.residualValue)
      (Financing.calculateLease Financing.leaseZeroResidualParams) =
      Except.ok (some 5500) ∧
    (5500 : ℚ) ≠ 0 := by
  refine ⟨rfl, ?_, by norm_num⟩
  unfold Financing.calculateLease
  norm_num [Financing.leaseZeroResidualParams, Financing.leaseResidual,
    Financing.netPriceOf, Financing.adjustedPriceOf, Financing.taxOf, roundJS,
    Except.map]

/-- C7: on the non-throwing path, the lease payment returned is the rounding
of the specification formula
`(net − residual) ÷ term + (net + residual) × (apr ÷ 2400)`, and the total
cost is the rounding of `monthly × term + downPayment + tradeInValue`. -/
theorem lease_formula_refines_spec (p : Financing.FinancingParams)
    (h1 : 0 < p.price) (h2 : 0 < p.termMonths) (h3 : 0 ≤ p.downPayment)
    (hres : Financing.leaseResidual p < Financing.netPriceOf p) :
    Except.map (fun r : Financing.PaymentCalculation => (r.monthlyPayment, r.totalCost))
      (Financing.calculateLease p) =
      Except.ok (roundJS (Financing.specLeaseMonthly p),
        roundJS (Financing.specLeaseMonthly p * (p.termMonths : ℚ) +
          p.downPayment + p.tradeInValue)) := by
  simp only [Financing.calculateLease]
  rw [if_neg (not_le.mpr h1), if_neg (not_le.mpr h2), if_neg (not_lt.mpr h3),
      if_neg (not_le.mpr hres)]
  simp only [Except.map, Financing.specLeaseMonthly]

/-- Witness for C7: at `baseParams` the lease formula rounds to monthly 339
and total cost 22349. -/
theorem lease_formula_refines_spec_witness :
    Financing.leaseResidual Financing.baseParams < Financing.netPriceOf Financing.baseParams ∧
    Except.map (fun r : Financing.PaymentCalculation => (r.monthlyPayment, r.totalCost))
      (Financing.calculateLease Financing.baseParams) = Except.ok (339, 22349) := by
  have hres : Financing.leaseResidual Financing.baseParams <
      Financing.netPriceOf Financing.baseParams := by
    norm_num [Financing.leaseResidual, Financing.baseParams, Financing.netPriceOf,
      Financing.adjustedPriceOf, Financing.taxOf, roundJS]
  refine ⟨hres, ?_⟩
  rw [lease_formula_refines_spec Financing.baseParams
    (by norm_num [Financing.baseParams]) (by norm_num [Financing.baseParams])
    (by norm_num [Financing.baseParams]) hres]
  norm_num [Financing.specLeaseMonthly, Financing.leaseResidual, Financing.baseParams,
    Financing.netPriceOf, Financing.adjustedPriceOf, Financing.taxOf, roundJS]

/-- C8: on the non-throwing path the subscription payment returned is the
rounding of the specification formula `0.6 × net ÷ term + 150 + 100`, and the
result does not depend on `apr` or `residualValue` at all. -/
theorem subscription_formula_refines_spec (p : Financing.FinancingParams)
    (h1 : 0 < p.price) (h2 : 0 < p.termMonths) :
    Except.map (fun r : Financing.PaymentCalculation => r.monthlyPayment)
      (Financing.calculateSubscription p) =
      Except.ok (roundJS (Financing.specSubscriptionMonthly p)) ∧
    ∀ a rv, Financing.calculateSubscription { p with apr := a, residualValue := rv } =
      Financing.calculateSubscription p := by
  constructor
  · simp only [Financing.calculateSubscription]
    rw [if_neg (not_le.mpr h1), if_neg (not_le.mpr h2)]
    simp only [Except.map]
    have h60 : Financing.netPriceOf p * (6/10) = Financing.netPriceOf p * (60/100) := by
      norm_num
    rw [Financing.specSubscriptionMonthly, h60]
  · intro a rv
    rfl

/-- Witness for C8: at `baseParams` the subscription formula rounds to
monthly 554, and changing `apr`/`residualValue` changes nothing. -/
theorem subscription_formula_refines_spec_witness :
    (0:ℚ) < 30000 ∧
    Except.map (fun r : Financing.PaymentCalculation => r.monthlyPayment)
      (Financing.calculateSubscription Financing.baseParams) = Except.ok 554 ∧
    Financing.calculateSubscription
        { Financing.baseParams with apr := 99, residualValue := some 12345 } =
      Financing.calculateSubscription Financing.baseParams := by
  have h := subscription_formula_refines_spec Financing.baseParams
    (by norm_num [Financing.baseParams]) (by norm_num [Financing.baseParams])
  refine ⟨by norm_num, ?_, h.2 99 (some 12345)⟩
  rw [h.1]
  norm_num [Financing.specSubscriptionMonthly, Financing.baseParams, Financing.netPriceOf,
    Financing.adjustedPriceOf, Financing.taxOf, roundJS]

/-- C3 (amended): in the typed NLU module, `detectIntent` classifies every
query containing a compare keyword ("vs", "versus", "compare",
"compared to") as compare regardless of other keywords; otherwise a finance
keyword yields finance, otherwise a filter keyword yields filter, otherwise
search.  (The plain-JavaScript `nlu.js` variant instead tests its search
pattern first — see the counterexample.) -/
theorem detectIntent_ts_precedence (text : String) :
    (hasCompareKeyword text = true → NluTs.detectIntent text = NluTs.Intent.compare) ∧
    (hasCompareKeyword text = false → NluTs.financeTest (lowerList text) = true →
        NluTs.detectIntent text = NluTs.Intent.finance) ∧
    (hasCompareKeyword text = false → NluTs.financeTest (lowerList text) = false →
        NluTs.filterTest (lowerList text) = true →
        NluTs.detectIntent text = NluTs.Intent.filter) ∧
    (hasCompareKeyword text = false → NluTs.financeTest (lowerList text) = false →
        NluTs.filterTest (lowerList text) = false →
        NluTs.detectIntent text = NluTs.Intent.search) := by
  have hcmp := compareTest_eq_hasCompareKeyword text
  refine ⟨fun h => ?_, fun h hfin => ?_, fun h hfin hfil => ?_, fun h hfin hfil => ?_⟩
  · simp only [NluTs.detectIntent]
    rw [hcmp]
    simp [h]
  · simp only [NluTs.detectIntent]
    rw [hcmp]
    simp [h, hfin]
  · simp only [NluTs.detectIntent]
    rw [hcmp]
    simp [h, hfin, hfil]
  · simp only [NluTs.detectIntent]
    rw [hcmp]
    simp [h, hfin, hfil]

/-- Witness for C3 (amended): "compare the price of the Camry vs Accord" has
a compare keyword and is classified compare, not finance, despite containing
"price". -/
theorem detectIntent_ts_precedence_witness :
    hasCompareKeyword "compare the price of the Camry vs Accord" = true ∧
    NluTs.detectIntent "compare the price of the Camry vs Accord" =
      NluTs.Intent.compare :=
  ⟨by decide,
   (detectIntent_ts_precedence "compare the price of the Camry vs Accord").1 (by decide)⟩

/-- C3 (counterexample): the `nlu.js` `detectIntent` tests the search pattern
before the compare pattern, so "show me the camry vs accord" — which contains
the compare keyword "vs" — is classified "search", not "compare". -/
theorem detectIntent_js_search_first :
    hasCompareKeyword "show me the camry vs accord" = true ∧
    NluJs.detectIntent "show me the camry vs accord" = "search" ∧
    ("search" : String) ≠ "compare" := by
  refine ⟨by decide, by decide, by decide⟩

/-- C9 (code bug): `extractPriceRange` maps "under $30k" to `max = 30000`,
"$25,000-$35,000" to `{min 25000, max 35000}` and "affordable" to
`max = 30000`, but a "thousand" suffix is matched by the pattern and then not
scaled: "under $30thousand" yields `max = 30` instead of 30000, because
`parsePrice` multiplies by 1000 only when the captured string contains 'k'. -/
theorem extractPriceRange_thousand_not_scaled :
    NluJs.extractPriceRange "under $30k" = { min := none, max := some 30000 } ∧
    NluJs.extractPriceRange "$25,000-$35,000" = { min := some 25000, max := some 35000 } ∧
    NluJs.extractPriceRange "affordable" = { min := none, max := some 30000 } ∧
    NluJs.extractPriceRange "under $30thousand" = { min := none, max := some 30 } ∧
    (30 : ℕ) ≠ 30000 := by
  refine ⟨by decide, by decide, by decide, by decide, by decide⟩
